import Mathlib

/-!
Verification of the miro-app-mcp serverless handlers.

The JavaScript source is shallowly embedded: pure helper functions become
Lean functions on `String` / `List Nat`; the network is an explicit oracle
(environment) argument, so each handler phase is a total function of its
environment; fallible code returns `Except String`.  Byte sequences are
`List Nat`, JSON values are the inductive `Jx`, and JS numbers that the
claims touch (geometry width/height) are modelled as `Int`.
-/

set_option maxHeartbeats 1000000

/-- Whitespace set used by the JavaScript string functions the source
relies on (`trim`, the regex class backslash-s): space, tab, newline,
carriage return, vertical tab, form feed, no-break space.  Exotic
Unicode space code points are not used by this code base. -/
def jsWhitespaceChar (c : Char) : Bool :=
  (c == ' ') || (c == '\t') || (c == '\n') || (c == '\r') ||
  (c.toNat == 11) || (c.toNat == 12) || (c.toNat == 0xa0)

/-- JavaScript `String.prototype.trim` (char-list implementation so that
concrete instances evaluate in the kernel). -/
def jsTrim (s : String) : String :=
  String.mk (((s.data.dropWhile jsWhitespaceChar).reverse.dropWhile jsWhitespaceChar).reverse)

/-- Char-list prefix test: does the second list start with the first. -/
def startsWithCl : List Char → List Char → Bool
  | [], _ => true
  | _ :: _, [] => false
  | p :: ps, c :: cs => p == c && startsWithCl ps cs

/-- JavaScript `s.startsWith(pat)`. -/
def jsStartsWith (s pat : String) : Bool :=
  startsWithCl pat.data s.data

/-- Occurrence test on char lists: the pattern occurs at some position. -/
def containsCl (pat : List Char) : List Char → Bool
  | [] => startsWithCl pat []
  | c :: cs => startsWithCl pat (c :: cs) || containsCl pat cs

/-- Substring test, modelling the JavaScript `String.prototype.includes`. -/
def strIncludes (s needle : String) : Bool :=
  containsCl needle.data s.data

/-- JavaScript `String.prototype.toLowerCase` (the source only lowercases
content-type headers). -/
def strToLower (s : String) : String :=
  String.mk (s.data.map Char.toLower)

/-- Char-list replace-all: every occurrence of the nonempty pattern is
replaced, scanning left to right without rescanning the replacement,
exactly as `String.prototype.replaceAll` with a string pattern.  The
fuel argument (instantiated with the list length, which bounds the
number of steps) makes the recursion structural so that concrete
instances evaluate in the kernel. -/
def replaceAllFuel (pat rep : List Char) : Nat → List Char → List Char
  | 0, s => s
  | _, [] => []
  | fuel + 1, c :: cs =>
    if pat ≠ [] && startsWithCl pat (c :: cs) then
      rep ++ replaceAllFuel pat rep fuel ((c :: cs).drop pat.length)
    else
      c :: replaceAllFuel pat rep fuel cs

/-- JavaScript `s.replaceAll(pat, rep)` for a nonempty string pattern. -/
def jsReplaceAll (s pat rep : String) : String :=
  String.mk (replaceAllFuel pat.data rep.data s.data.length s.data)

/-- Split a char list at newline characters. -/
def splitLinesAux : List Char → List Char → List String
  | [], cur => [String.mk cur.reverse]
  | c :: rest, cur =>
    if c == '\n' then String.mk cur.reverse :: splitLinesAux rest []
    else splitLinesAux rest (c :: cur)

/-- JavaScript `s.split(/\r?\n/)`: normalising CRLF to LF and splitting
on LF yields the same pieces as the regex split. -/
def splitRN (s : String) : List String :=
  splitLinesAux (replaceAllFuel ['\r', '\n'] ['\n'] s.data.length s.data) []

/-- First-occurrence-order de-duplication with an accumulator of already
seen strings; models `Array.from(new Set(urls))`. -/
def dedupFirstAux (seen : List String) : List String → List String
  | [] => []
  | x :: xs =>
    if seen.contains x then dedupFirstAux seen xs
    else x :: dedupFirstAux (x :: seen) xs

/-- Models `Array.from(new Set(urls))`: keeps the first occurrence of each
string, in order. -/
def dedupFirst (l : List String) : List String :=
  dedupFirstAux [] l

/-- PDF magic-byte validator, from `isPdfMagic` (identical in
`src/api/analyze-selected-pdf.js`, `src/unnamed/part_000`,
`src/unnamed/part_001`, `src/unnamed/part_002`):
`bytes.length >= 4 && bytes[0] == 0x25 && bytes[1] == 0x50 &&
bytes[2] == 0x44 && bytes[3] == 0x46`. -/
def isPdfMagic (bytes : List Nat) : Bool :=
  decide (4 ≤ bytes.length) &&
  (bytes.getD 0 0 == 0x25) &&
  (bytes.getD 1 0 == 0x50) &&
  (bytes.getD 2 0 == 0x44) &&
  (bytes.getD 3 0 == 0x46)

/-- JSON values, modelling the result of `res.json()` / `JSON.parse`.
Object fields are listed in the JavaScript key-enumeration order. -/
inductive Jx where
  | jnull
  | jbool (b : Bool)
  | jnum (n : Int)
  | jstr (s : String)
  | jarr (elems : List Jx)
  | jobj (fields : List (String × Jx))
deriving BEq, Repr

/-- Property lookup on a JSON object: first field with the given key
(JavaScript objects have unique keys). -/
def jlookup (fields : List (String × Jx)) (k : String) : Option Jx :=
  (fields.find? (fun p => p.1 == k)).map (fun p => p.2)

/-- Reads a property as a string value (JavaScript `typeof v === "string"`). -/
def jStrField (fields : List (String × Jx)) (k : String) : Option String :=
  match jlookup fields k with
  | some (Jx.jstr s) => some s
  | _ => none

/-- Models the inner `pushIfString` of `extractUrlCandidatesFromJson`:
push the trimmed value when it is a string with nonempty trim. -/
def pushIfString (v : Option String) : List String :=
  match v with
  | some s => if jsTrim s ≠ "" then [jsTrim s] else []
  | none => []

/-- Top-level well-known URL field names probed by
`extractUrlCandidatesFromJson`, in source order. -/
def topNames : List String :=
  ["url", "downloadUrl", "download_url", "documentUrl", "document_url", "href", "location"]

/-- Field names probed one level down inside `obj.data`, in source order. -/
def dataNames : List String :=
  ["url", "downloadUrl", "download_url", "documentUrl", "document_url", "href"]

/-- Field names probed inside `obj.links` and `obj._links`, in source order. -/
def linkNames : List String :=
  ["download", "file", "self"]

/-- The named-field pushes of `extractUrlCandidatesFromJson` (top-level
fields, then `data.*`, `links.*`, `_links.*`); a nested value that is not
a plain object contributes nothing, as in the source where property
lookups on it yield `undefined`. -/
def namedPushes (fields : List (String × Jx)) : List String :=
  (topNames.map (fun k => pushIfString (jStrField fields k))).flatten
  ++ (match jlookup fields "data" with
      | some (Jx.jobj f2) => (dataNames.map (fun k => pushIfString (jStrField f2 k))).flatten
      | _ => [])
  ++ (match jlookup fields "links" with
      | some (Jx.jobj f2) => (linkNames.map (fun k => pushIfString (jStrField f2 k))).flatten
      | _ => [])
  ++ (match jlookup fields "_links" with
      | some (Jx.jobj f2) => (linkNames.map (fun k => pushIfString (jStrField f2 k))).flatten
      | _ => [])

/-- JavaScript `v.startsWith("http://") || v.startsWith("https://")`. -/
def httpStart (s : String) : Bool :=
  jsStartsWith s "http://" || jsStartsWith s "https://"

/-- One value of the generic one-level-deep scan: a string starting with
an http(s) scheme is pushed untrimmed; a non-array object is scanned one
further level for such strings; arrays are skipped (the source excludes
`Array.isArray(v)`). -/
def genericScanVal : Jx → List String
  | Jx.jstr s => if httpStart s then [s] else []
  | Jx.jobj f2 =>
    (f2.map (fun p =>
      match p.2 with
      | Jx.jstr s2 => if httpStart s2 then [s2] else []
      | _ => [])).flatten
  | _ => []

/-- The generic `for (const k of Object.keys(obj))` scan of
`extractUrlCandidatesFromJson`. -/
def genericScan (fields : List (String × Jx)) : List String :=
  (fields.map (fun p => genericScanVal p.2)).flatten

/-- `extractUrlCandidatesFromJson` from `src/api/analyze-selected-pdf.js`
(lines 483-529; identical in part_000/part_001/part_002): named pushes,
then the generic scan, then de-duplication.  A `null` parse result or a
non-object value yields no candidates; a top-level array is enumerated by
`Object.keys` so only the generic scan applies to its elements. -/
def extractUrlCandidatesFromJson : Option Jx → List String
  | some (Jx.jobj fields) => dedupFirst (namedPushes fields ++ genericScan fields)
  | some (Jx.jarr elems) => dedupFirst ((elems.map genericScanVal).flatten)
  | _ => []

/-- Marks URLs pointing at the platform API host:
`u.includes("api.miro.com")`. -/
def isMiroApiUrl (u : String) : Bool :=
  strIncludes u "api.miro.com"

/-- The JavaScript sort comparator of `miroDownloadBinary` translated to a
"may stay before" relation: `comparator(a, b) <= 0`, i.e. it is not the
case that a is a platform-API URL while b is not. -/
def jsCmpLe (a b : String) : Bool :=
  !(isMiroApiUrl a) || isMiroApiUrl b

/-- Stable insertion into an already sorted list: the new element goes
after every element it does not strictly precede, preserving the original
relative order of tied elements (ECMAScript `Array.prototype.sort` is
required to be stable). -/
def insSorted (x : String) : List String → List String
  | [] => [x]
  | y :: ys => if jsCmpLe y x then y :: insSorted x ys else x :: y :: ys

/-- `candidates.slice().sort(comparator)` of `miroDownloadBinary`
(analyze-selected-pdf.js lines 562-567): a stable sort by the boolean key
"contains api.miro.com".  For a consistent comparator the stable sorted
result is unique, so a stable left-fold insertion sort embeds it. -/
def sortCandidates (l : List String) : List String :=
  l.foldl (fun acc x => insSorted x acc) []

/-- HTTP response as seen by the fetcher code: `ok` flag, the
content-type header, the body bytes (`readBytes`), and the body parsed as
JSON (`res.json()`, `none` when parsing fails). -/
structure FetchResponse where
  ok : Bool
  contentType : String
  body : List Nat
  json : Option Jx

/-- The network environment of one `miroDownloadBinary` execution: a
response for every (URL, with-auth) request.  Within one execution no
such pair is fetched twice, so any real network trace is expressible. -/
def Oracle : Type :=
  String → Bool → FetchResponse

/-- `strIncludes (contentType.toLower) needle`, modelling
`getHeaderLower(res, "content-type").includes(needle)`. -/
def ctIncludes (r : FetchResponse) (needle : String) : Bool :=
  strIncludes (strToLower r.contentType) needle

/-- Candidate loop of the slim `miroDownloadBinary`
(analyze-selected-pdf.js lines 571-599, identical in part_001/part_002):
for each candidate try with auth, then without; a response that is ok and
either declares application/pdf or carries the magic bytes is returned
as-is; every failure only advances to the next attempt. -/
def tryCandidates (o : Oracle) : List String → Except String (List Nat)
  | [] => Except.error "Could not resolve PDF from JSON."
  | u :: rest =>
    if (o u true).ok && (ctIncludes (o u true) "application/pdf" || isPdfMagic (o u true).body) then
      Except.ok (o u true).body
    else
      if (o u false).ok && (ctIncludes (o u false) "application/pdf" || isPdfMagic (o u false).body) then
        Except.ok (o u false).body
      else
        tryCandidates o rest

/-- `miroDownloadBinary` from `src/api/analyze-selected-pdf.js`
(lines 537-608; the same code appears in part_001 and part_002):
step 1 with auth; a declared PDF is magic-checked; a JSON response is
mined for candidate URLs which are sorted and tried; otherwise the raw
bytes are magic-checked. -/
def miroDownloadBinary (o : Oracle) (downloadUrl : String) : Except String (List Nat) :=
  if !(o downloadUrl true).ok then
    Except.error "Download (step1) failed"
  else if ctIncludes (o downloadUrl true) "application/pdf" then
    if !isPdfMagic (o downloadUrl true).body then
      Except.error "Download (step1) content-type=application/pdf but missing magic"
    else
      Except.ok (o downloadUrl true).body
  else if ctIncludes (o downloadUrl true) "application/json" then
    if (extractUrlCandidatesFromJson (o downloadUrl true).json).isEmpty then
      Except.error "Download (step1) returned JSON but no URL candidates found."
    else
      tryCandidates o (sortCandidates (extractUrlCandidatesFromJson (o downloadUrl true).json))
  else if isPdfMagic (o downloadUrl true).body then
    Except.ok (o downloadUrl true).body
  else
    Except.error "Download did not yield a PDF."

namespace Part000

/-- The no-auth retry for one candidate in part_000 (lines 339-361):
succeeds only when the response is ok, looks like a PDF, and actually
carries the magic bytes; an ok response that claims PDF but lacks the
magic throws, which the loop catches and treats as this candidate
failing. -/
def noauthAttempt (o : Oracle) (u : String) : Option (List Nat) :=
  if (o u false).ok && (ctIncludes (o u false) "application/pdf" || isPdfMagic (o u false).body) then
    if isPdfMagic (o u false).body then some (o u false).body else none
  else none

/-- Candidate loop of `miroDownloadBinary` in `src/unnamed/part_000`
(lines 311-362): same auth-then-noauth order as the slim variant, but
inside each accepting branch the magic bytes are re-verified and a
mismatch is thrown (caught, recorded as lastErr) instead of returned. -/
def tryCandidates (o : Oracle) : List String → Except String (List Nat)
  | [] => Except.error "Could not resolve PDF from documentUrl JSON."
  | u :: rest =>
    if (o u true).ok && (ctIncludes (o u true) "application/pdf" || isPdfMagic (o u true).body) then
      if isPdfMagic (o u true).body then Except.ok (o u true).body
      else
        match noauthAttempt o u with
        | some b => Except.ok b
        | none => Part000.tryCandidates o rest
    else
      match noauthAttempt o u with
      | some b => Except.ok b
      | none => Part000.tryCandidates o rest

/-- `miroDownloadBinary` from `src/unnamed/part_000` (lines 262-391):
like the slim variant but every accepting branch re-verifies the magic
bytes, and the non-JSON fallthrough retries the original URL once without
auth (step 3) before failing; an uncaught magic mismatch in step 3 aborts
the call. -/
def miroDownloadBinary (o : Oracle) (downloadUrl : String) : Except String (List Nat) :=
  if !(o downloadUrl true).ok then
    Except.error "Download (step1) failed"
  else if ctIncludes (o downloadUrl true) "application/pdf" then
    if !isPdfMagic (o downloadUrl true).body then
      Except.error "Download (step1) content-type=application/pdf but missing magic"
    else
      Except.ok (o downloadUrl true).body
  else if ctIncludes (o downloadUrl true) "application/json" then
    if (extractUrlCandidatesFromJson (o downloadUrl true).json).isEmpty then
      Except.error "Download (step1) returned JSON but no download URL candidates found."
    else
      Part000.tryCandidates o (sortCandidates (extractUrlCandidatesFromJson (o downloadUrl true).json))
  else if isPdfMagic (o downloadUrl true).body then
    Except.ok (o downloadUrl true).body
  else
    if (o downloadUrl false).ok
        && (ctIncludes (o downloadUrl false) "application/pdf"
            || isPdfMagic (o downloadUrl false).body) then
      if isPdfMagic (o downloadUrl false).body then Except.ok (o downloadUrl false).body
      else Except.error "Download (step3/noauth) missing magic"
    else
      Except.error "Download did not yield a PDF."

end Part000

/-- Claim C8: for all byte sequences b, the PDF validator returns true
if and only if b has length at least 4 and its first four bytes are
0x25 0x50 0x44 0x46 (ASCII percent-P-D-F). -/
theorem C8_isPdfMagic_iff (b : List Nat) :
    isPdfMagic b = true ↔ 4 ≤ b.length ∧ b.take 4 = [0x25, 0x50, 0x44, 0x46] := by
  match b with
  | [] => simp [isPdfMagic]
  | [b0] => simp [isPdfMagic]
  | [b0, b1] => simp [isPdfMagic]
  | [b0, b1, b2] => simp [isPdfMagic]
  | b0 :: b1 :: b2 :: b3 :: rest =>
    simp [isPdfMagic, List.getD, List.take]
    constructor
    · rintro ⟨⟨⟨h0, h1⟩, h2⟩, h3⟩
      omega
    · rintro ⟨h0, h1, h2, h3⟩
      omega

/-- Inserting a platform-API URL appends it at the end: the comparator
lets every element stay before it. -/
theorem insSorted_miro (x : String) (hx : isMiroApiUrl x = true) :
    ∀ L : List String, insSorted x L = L ++ [x] := by
  intro L
  induction L with
  | nil => rfl
  | cons y ys ih => simp [insSorted, jsCmpLe, hx, ih]

/-- Inserting a non-platform URL into a list of non-platform URLs
followed by platform URLs places it right between the two blocks. -/
theorem insSorted_nonmiro (x : String) (hx : isMiroApiUrl x = false) :
    ∀ A B : List String, (∀ y ∈ A, isMiroApiUrl y = false) →
      (∀ y ∈ B, isMiroApiUrl y = true) →
      insSorted x (A ++ B) = A ++ x :: B := by
  intro A
  induction A with
  | nil =>
    intro B _ hB
    cases B with
    | nil => rfl
    | cons b bs =>
      have hb : isMiroApiUrl b = true := hB b (by simp)
      simp [insSorted, jsCmpLe, hb, hx]
  | cons a as ih =>
    intro B hA hB
    have ha : isMiroApiUrl a = false := hA a (by simp)
    have := ih B (fun y hy => hA y (by simp [hy])) hB
    simp [insSorted, jsCmpLe, ha, this]

/-- Invariant of the insertion-sort fold: starting from a partitioned
accumulator, it extends both blocks in input order. -/
theorem sortCandidates_fold (l : List String) :
    ∀ A B : List String, (∀ y ∈ A, isMiroApiUrl y = false) →
      (∀ y ∈ B, isMiroApiUrl y = true) →
      l.foldl (fun acc x => insSorted x acc) (A ++ B)
        = (A ++ l.filter (fun u => !isMiroApiUrl u))
          ++ (B ++ l.filter (fun u => isMiroApiUrl u)) := by
  induction l with
  | nil => intro A B _ _; simp
  | cons x l ih =>
    intro A B hA hB
    by_cases hx : isMiroApiUrl x = true
    · have h1 : insSorted x (A ++ B) = A ++ (B ++ [x]) := by
        rw [insSorted_miro x hx (A ++ B), List.append_assoc]
      have h2 := ih A (B ++ [x]) hA (by
        intro y hy
        rcases List.mem_append.mp hy with h | h
        · exact hB y h
        · simp at h; simpa [h] using hx)
      simp only [List.foldl_cons, h1, h2, List.filter_cons, hx]
      simp
    · have hx' : isMiroApiUrl x = false := by
        cases h : isMiroApiUrl x with
        | true => exact absurd h hx
        | false => rfl
      have h1 : insSorted x (A ++ B) = (A ++ [x]) ++ B := by
        rw [insSorted_nonmiro x hx' A B hA hB, List.append_assoc]; simp
      have h2 := ih (A ++ [x]) B (by
        intro y hy
        rcases List.mem_append.mp hy with h | h
        · exact hA y h
        · simp at h; simpa [h] using hx') hB
      simp only [List.foldl_cons, h1, h2, List.filter_cons, hx']
      simp

/-- Claim C5: the candidate order tried by miroDownloadBinary places
every candidate whose URL does not contain api.miro.com before every
candidate whose URL does, and candidates within the same class keep
their original relative order: the stable sort by the boolean key equals
the partition of the input list. -/
theorem C5_sortCandidates_partitions (l : List String) :
    sortCandidates l
      = l.filter (fun u => !isMiroApiUrl u) ++ l.filter (fun u => isMiroApiUrl u) := by
  have := sortCandidates_fold l [] [] (by simp) (by simp)
  simpa [sortCandidates] using this

/-- Every successful no-auth retry in part_000 carries the magic bytes. -/
theorem Part000.noauthAttempt_magic (o : Oracle) (u : String) (b : List Nat)
    (h : Part000.noauthAttempt o u = some b) : isPdfMagic b = true := by
  unfold Part000.noauthAttempt at h
  split at h
  · split at h
    · cases h; assumption
    · cases h
  · cases h

/-- Every successful candidate attempt in the part_000 loop carries the
magic bytes. -/
theorem Part000.tryCandidates_magic (o : Oracle) :
    ∀ (l : List String) (b : List Nat),
      Part000.tryCandidates o l = Except.ok b → isPdfMagic b = true := by
  intro l
  induction l with
  | nil => intro b h; simp [Part000.tryCandidates] at h
  | cons u rest ih =>
    intro b h
    rw [Part000.tryCandidates] at h
    split at h
    · split at h
      · cases h; assumption
      · split at h
        · cases h
          exact Part000.noauthAttempt_magic o u _ (by assumption)
        · exact ih b h
    · split at h
      · cases h
        exact Part000.noauthAttempt_magic o u _ (by assumption)
      · exact ih b h

/-- Claim C1 (amended): every successful return of the part_000 byte
fetcher starts with the percent-P-D-F magic bytes, whatever the network
does — including the candidate-URL fetches of the JSON-redirect branch
and the step-3 no-auth retry. -/
theorem C1_part000_success_is_pdf (o : Oracle) (url : String) (b : List Nat)
    (h : Part000.miroDownloadBinary o url = Except.ok b) : isPdfMagic b = true := by
  unfold Part000.miroDownloadBinary at h
  split at h
  · cases h
  · split at h
    · split at h
      · cases h
      · cases h
        simp_all
    · split at h
      · split at h
        · cases h
        · exact Part000.tryCandidates_magic o _ b h
      · split at h
        · cases h; assumption
        · split at h
          · split at h
            · cases h; assumption
            · cases h
          · cases h

/-- Network scenario refuting claim C1 on the slim fetcher: the initial
URL answers JSON naming one candidate; fetching the candidate with auth
answers ok with content-type application/pdf but a body that is not a
PDF. -/
def oC1 : Oracle := fun v a =>
  if v = "https://meta.example/doc" then
    { ok := true, contentType := "application/json", body := [],
      json := some (Jx.jobj [("data", Jx.jobj [("documentUrl", Jx.jstr "https://cdn.example/x")])]) }
  else if v = "https://cdn.example/x" then
    (if a then { ok := true, contentType := "application/pdf", body := [0, 1, 2, 3], json := none }
     else { ok := false, contentType := "", body := [], json := none })
  else { ok := false, contentType := "", body := [], json := none }

/-- Claim C1 counterexample: the miroDownloadBinary of
analyze-selected-pdf.js returns the candidate-fetch body unvalidated when
that response declares content-type application/pdf, so it successfully
returns the bytes 0 1 2 3, which do not start with the PDF magic. -/
theorem C1_counterexample :
    miroDownloadBinary oC1 "https://meta.example/doc" = Except.ok [0, 1, 2, 3]
    ∧ isPdfMagic [0, 1, 2, 3] = false := by
  exact ⟨rfl, by decide⟩

/-- Network scenario witnessing a successful part_000 download: the URL
directly answers a declared PDF with valid magic bytes. -/
def oC1w : Oracle := fun _ _ =>
  { ok := true, contentType := "application/pdf",
    body := [0x25, 0x50, 0x44, 0x46, 0x31], json := none }

/-- Witness for the amended claim C1: a concrete oracle on which the
part_000 fetcher succeeds, and the theorem yields the magic-byte fact. -/
theorem C1_witness :
    Part000.miroDownloadBinary oC1w "https://dl.example/doc"
      = Except.ok [0x25, 0x50, 0x44, 0x46, 0x31]
    ∧ isPdfMagic [0x25, 0x50, 0x44, 0x46, 0x31] = true :=
  ⟨rfl, C1_part000_success_is_pdf oC1w "https://dl.example/doc" [0x25, 0x50, 0x44, 0x46, 0x31] rfl⟩

/-- Candidate extraction on the JSON shape of claim C4: the single
documentUrl nested under data is found by both the named-field probe and
the generic scan, and de-duplicates to one candidate. -/
theorem extract_data_documentUrl (u : String) (ht : jsTrim u = u) (hne : u ≠ "")
    (hpre : jsStartsWith u "https://" = true) :
    extractUrlCandidatesFromJson
      (some (Jx.jobj [("data", Jx.jobj [("documentUrl", Jx.jstr u)])])) = [u] := by
  have h1 : pushIfString (some u) = [u] := by simp [pushIfString, ht, hne]
  have h2 : httpStart u = true := by simp [httpStart, hpre]
  simp [extractUrlCandidatesFromJson, namedPushes, genericScan, genericScanVal,
    topNames, dataNames, linkNames, jStrField, jlookup, h1, h2, dedupFirst,
    dedupFirstAux, List.find?]

/-- Claim C4: when the initial fetch returns JSON data.documentUrl = u,
the fetch of u fails with the bearer credential attached, and the fetch
of u without any credential returns valid PDF bytes, miroDownloadBinary
succeeds and returns those bytes: u is extracted as the only candidate,
tried with auth, and on failure retried without auth. -/
theorem C4_auth_then_noauth (o : Oracle) (url u : String) (pdfBytes : List Nat)
    (h1ok : (o url true).ok = true)
    (h1ct : (o url true).contentType = "application/json")
    (h1json : (o url true).json
      = some (Jx.jobj [("data", Jx.jobj [("documentUrl", Jx.jstr u)])]))
    (h2 : (o u true).ok = false)
    (h3ok : (o u false).ok = true)
    (h3body : (o u false).body = pdfBytes)
    (hm : isPdfMagic pdfBytes = true)
    (ht : jsTrim u = u) (hne : u ≠ "") (hpre : jsStartsWith u "https://" = true) :
    miroDownloadBinary o url = Except.ok pdfBytes := by
  have hcand := extract_data_documentUrl u ht hne hpre
  have hsort : sortCandidates [u] = [u] := rfl
  have hctpdf : strIncludes (strToLower "application/json") "application/pdf" = false := by decide
  have hctjson : strIncludes (strToLower "application/json") "application/json" = true := by decide
  unfold miroDownloadBinary
  simp only [ctIncludes, h1ok, h1ct, h1json, hcand, hsort, hctpdf, hctjson,
    Bool.not_true, Bool.false_eq_true, if_false, if_true, List.isEmpty_cons]
  simp only [tryCandidates, h2, h3ok, h3body, hm, Bool.false_and, Bool.true_and,
    Bool.or_true, if_true, Bool.false_eq_true, if_false]

/-- Network scenario of claim C4: JSON redirect to a CDN URL that rejects
the bearer credential but serves the PDF without credentials. -/
def oC4 : Oracle := fun v a =>
  if v = "https://meta.example/doc" then
    { ok := true, contentType := "application/json", body := [],
      json := some (Jx.jobj [("data", Jx.jobj [("documentUrl", Jx.jstr "https://cdn.example/x")])]) }
  else if v = "https://cdn.example/x" then
    (if a then { ok := false, contentType := "", body := [], json := none }
     else { ok := true, contentType := "application/octet-stream",
            body := [0x25, 0x50, 0x44, 0x46, 0x2d], json := none })
  else { ok := false, contentType := "", body := [], json := none }

/-- Witness for claim C4 at a concrete network scenario. -/
theorem C4_witness :
    (oC4 "https://cdn.example/x" true).ok = false
    ∧ isPdfMagic [0x25, 0x50, 0x44, 0x46, 0x2d] = true
    ∧ miroDownloadBinary oC4 "https://meta.example/doc"
        = Except.ok [0x25, 0x50, 0x44, 0x46, 0x2d] :=
  ⟨rfl, by decide,
    C4_auth_then_noauth oC4 "https://meta.example/doc" "https://cdn.example/x"
      [0x25, 0x50, 0x44, 0x46, 0x2d] rfl rfl rfl rfl rfl rfl (by decide) (by decide)
      (by decide) (by decide)⟩

/-- Drop a char list up to and including the first closing angle
bracket. -/
def dropThroughGt (l : List Char) : List Char :=
  (l.dropWhile (fun c => !(c == '>'))).drop 1

/-- Core of `stripHtmlTags`: the regex removes, at each opening angle
bracket that has a later closing one, everything up to the first closing
bracket; an opening bracket with no later closing bracket stays.  The
fuel (instantiated with the list length, a bound on the steps) makes the
recursion structural. -/
def stripTagsFuel : Nat → List Char → List Char
  | 0, _ => []
  | _, [] => []
  | fuel + 1, c :: rest =>
    if c == '<' && rest.contains '>' then stripTagsFuel fuel (dropThroughGt rest)
    else c :: stripTagsFuel fuel rest

/-- `stripHtmlTags` from `findDocFormatByTitle` in part_001
(line 467): `s.replace(/<[^>]*>/g, "")`. -/
def stripHtmlTags (s : String) : String :=
  String.mk (stripTagsFuel s.data.length s.data)

/-- Board item as the locator sees it: the union of the fields probed on
list items and on document-detail responses; `none` models an absent or
non-string (for titles) / non-finite-number (for geometry) field, and an
absent id is the empty string (the source tests JS truthiness). -/
structure MItem where
  id : String
  itemType : String
  title : Option String
  name : Option String
  dataTitle : Option String
  dataName : Option String
  dataContent : Option String
  content : Option String
  geomW : Option Int
  geomH : Option Int
deriving DecidableEq, Repr

/-- First candidate that is a string with nonempty trim, trimmed. -/
def pickFirstTitle : List (Option String) → String
  | [] => ""
  | some s :: rest => if jsTrim s ≠ "" then jsTrim s else pickFirstTitle rest
  | none :: rest => pickFirstTitle rest

/-- `extractItemTitle` (analyze-selected-pdf.js lines 366-378, identical
in part_001): first nonempty of title, name, data.title, data.name. -/
def extractItemTitle (it : MItem) : String :=
  pickFirstTitle [it.title, it.name, it.dataTitle, it.dataName]

/-- `geometryArea` (part_001 lines 560-565): width times height, each
summand 0 when absent or not a finite number. -/
def geometryArea (it : MItem) : Int :=
  (it.geomW.getD 0) * (it.geomH.getD 0)

/-- Replace no-break spaces by plain spaces and trim, the
`.replaceAll(" ", " ").trim()` idiom of the source. -/
def stripNbspTrim (s : String) : String :=
  jsTrim (jsReplaceAll s "\u00a0" " ")

namespace Part001

/-- `extractDocContent` nested in part_001 findDocFormatByTitle
(lines 471-477), top-level fallback half. -/
def topContentField (d : MItem) : String :=
  match d.content with
  | some s => if jsTrim s ≠ "" then s else ""
  | none => ""

/-- `extractDocContent` (part_001 lines 471-477): data.content when its
trim is nonempty, else the top-level content field, else empty. -/
def extractDocContent (d : MItem) : String :=
  match d.dataContent with
  | some s => if jsTrim s ≠ "" then s else topContentField d
  | none => topContentField d

/-- `first.replace(/^#{1,6}\s+/, "")`: strip one to six leading hash
marks followed by at least one whitespace char (the greedy whitespace
run); anything else is left unchanged. -/
def stripHeadingMarker (s : String) : String :=
  let hs := s.data.takeWhile (fun c => c == '#')
  if 1 ≤ hs.length ∧ hs.length ≤ 6 then
    match s.data.drop hs.length with
    | [] => s
    | c :: rest =>
      if jsWhitespaceChar c then String.mk ((c :: rest).dropWhile jsWhitespaceChar)
      else s
  else s

/-- `isEffectivelyEmptyDoc` (part_001 lines 479-501): literally empty
content is NOT effectively empty; otherwise content that strips to
nothing, or strips to exactly the wanted title, or is a single line
whose heading-stripped trim equals the wanted title, is a placeholder. -/
def isEffectivelyEmptyDoc (wanted : String) (d : MItem) : Bool :=
  let content := extractDocContent d
  if content = "" then false
  else if stripNbspTrim (stripHtmlTags content) = "" then true
  else if stripNbspTrim (stripHtmlTags content) = wanted then true
  else
    match ((splitRN content).map (fun l => stripNbspTrim (stripHtmlTags l))).filter
        (fun l => !(l == "")) with
    | [first] => decide (jsTrim (stripHeadingMarker first) = wanted)
    | _ => false

/-- The markdown heading capture `l.match(/^#{1,6}\s+(.*)$/)` with the
source condition `m && m[1] && m[1].trim()`: some trimmed capture when
one to six hashes are followed by whitespace and a nonempty remainder. -/
def headingTitle (l : String) : Option String :=
  let hs := l.data.takeWhile (fun c => c == '#')
  if 1 ≤ hs.length ∧ hs.length ≤ 6 then
    match l.data.drop hs.length with
    | [] => none
    | c :: rest =>
      if jsWhitespaceChar c then
        let m1 := String.mk ((c :: rest).dropWhile jsWhitespaceChar)
        if m1 ≠ "" ∧ jsTrim m1 ≠ "" then some (jsTrim m1) else none
      else none
  else none

/-- Case-insensitive prefix drop: the remainder after the pattern when
the list starts with it ignoring case. -/
def ciDropPre : List Char → List Char → Option (List Char)
  | [], s => some s
  | _ :: _, [] => none
  | p :: ps, c :: cs => if p.toLower == c.toLower then ciDropPre ps cs else none

/-- Find the earliest case-insensitive closing h1 tag and return the
capture before it; the lazy dot of the regex cannot cross a line
terminator, so a newline or carriage return before the closing tag makes
the match at this start position fail. -/
def findCloseH1 : List Char → Option (List Char)
  | [] => none
  | c :: cs =>
    match ciDropPre "</h1>".data (c :: cs) with
    | some _ => some []
    | none =>
      if c == '\n' || c == '\r' then none
      else (findCloseH1 cs).map (fun b => c :: b)

/-- Try the h1 regex `<h1[^>]*>(.*?)<\/h1>` (case-insensitive) anchored
at the start of the list: the capture group when it matches here. -/
def h1At (s : List Char) : Option (List Char) :=
  match ciDropPre "<h1".data s with
  | none => none
  | some rest =>
    match rest.dropWhile (fun c => !(c == '>')) with
    | [] => none
    | _ :: rest2 => findCloseH1 rest2

/-- Leftmost match of the h1 regex: scan start positions left to
right. -/
def h1Search : List Char → Option (List Char)
  | [] => none
  | c :: cs =>
    match h1At (c :: cs) with
    | some cap => some cap
    | none => h1Search cs

/-- The h1 branch of `extractDocFormatTitleFromContent` (part_001
lines 547-551): an empty capture is falsy and falls through, as does a
capture whose tag-stripped trim is empty. -/
def h1Title (l : String) : Option String :=
  match h1Search l.data with
  | some [] => none
  | some cap =>
    if jsTrim (stripHtmlTags (String.mk cap)) ≠ ""
    then some (jsTrim (stripHtmlTags (String.mk cap)))
    else none
  | none => none

/-- Per-line title derivation of `extractDocFormatTitleFromContent`
(part_001 lines 537-555): skip blank lines; on the first nonblank line
try the markdown heading, then the h1 tag, then fall back to the
tag-stripped trimmed line. -/
def firstLineTitle : List String → String
  | [] => ""
  | line :: rest =>
    if jsTrim line = "" then firstLineTitle rest
    else
      match headingTitle (jsTrim line) with
      | some ti => ti
      | none =>
        match h1Title (jsTrim line) with
        | some ti => ti
        | none => jsTrim (stripHtmlTags (jsTrim line))

/-- `extractDocFormatTitleFromContent` (part_001 lines 527-558): a real
title field wins; otherwise the title is derived from the content. -/
def extractDocFormatTitleFromContent (d : MItem) : String :=
  let t := extractItemTitle d
  if t ≠ "" then t
  else
    let content := extractDocContent d
    if content = "" then "" else firstLineTitle (splitRN content)

end Part001

/-- One page of the paginated item listing, flattened to the fields
`extractNextCursor` probes: `data` (absent or not an array means no
items), `cursor` as a string, `cursor.next`, `cursor.cursor`,
`nextCursor`, `next_page_token`. -/
structure PageResp where
  data : Option (List MItem)
  cursorStr : Option String
  cursorNext : Option String
  cursorCursor : Option String
  nextCursor : Option String
  nextPageToken : Option String

/-- `extractNextCursor` (analyze-selected-pdf.js lines 380-393,
identical in part_001): the first nonempty cursor among the probed
shapes, else none. -/
def extractNextCursor (p : PageResp) : Option String :=
  if p.cursorStr.any (fun s => !(s == "")) then p.cursorStr
  else if p.cursorNext.any (fun s => !(s == "")) then p.cursorNext
  else if p.cursorCursor.any (fun s => !(s == "")) then p.cursorCursor
  else if p.nextCursor.any (fun s => !(s == "")) then p.nextCursor
  else if p.nextPageToken.any (fun s => !(s == "")) then p.nextPageToken
  else none

/-- Board-side environment of one locator run: the page listing keyed by
the cursor parameter (`none` for the first request, and `none` as result
when the GET throws), and the per-item document-details endpoint
(`none` when that GET throws, which the source catches). -/
structure BoardEnv where
  listPage : Option String → Option PageResp
  docs : String → Option MItem

/-- Result of `mergeListItemAndDetails` (part_001 lines 503-525), kept
as the pair: the id and position/geometry come from the list item, the
content from the details. -/
structure Merged where
  item : MItem
  details : Option MItem
deriving DecidableEq, Repr

namespace Part001

/-- Per-page item scan of part_001 findDocFormatByTitle (lines 581-630):
skip non-doc-format or id-less items; an item matches when its list
title is the wanted one (details fetched, match kept even if that fetch
fails) or when the title derived from its fetched details content is the
wanted one; a matching placeholder returns immediately; otherwise the
largest-area match so far is kept (first seen wins ties). -/
def scanItems (env : BoardEnv) (wanted : String) :
    List MItem → Option Merged → Int → Sum Merged (Option Merged × Int)
  | [], best, bestArea => Sum.inr (best, bestArea)
  | it :: rest, best, bestArea =>
    if it.itemType ≠ "doc_format" then scanItems env wanted rest best bestArea
    else if it.id = "" then scanItems env wanted rest best bestArea
    else
      match env.docs it.id with
      | some d =>
        if extractItemTitle it = wanted ∨ extractDocFormatTitleFromContent d = wanted then
          if isEffectivelyEmptyDoc wanted d then Sum.inl ⟨it, some d⟩
          else
            if best.isNone || decide (geometryArea it > bestArea) then
              scanItems env wanted rest (some ⟨it, some d⟩) (geometryArea it)
            else scanItems env wanted rest best bestArea
        else scanItems env wanted rest best bestArea
      | none =>
        if extractItemTitle it = wanted then
          if best.isNone || decide (geometryArea it > bestArea) then
            scanItems env wanted rest (some ⟨it, none⟩) (geometryArea it)
          else scanItems env wanted rest best bestArea
        else scanItems env wanted rest best bestArea

/-- The page loop of part_001 findDocFormatByTitle (lines 572-635): the
fuel is the remaining iterations of `for (let i = 0; i < 100; i++)`;
a page-fetch failure propagates, a placeholder returns immediately, and
the loop breaks when no next cursor is found. -/
def fdLoop (env : BoardEnv) (wanted : String) :
    Nat → Option String → Option Merged → Int → Except String (Option Merged)
  | 0, _, best, _ => Except.ok best
  | fuel + 1, cursor, best, bestArea =>
    match env.listPage cursor with
    | none => Except.error "Miro GET items failed"
    | some page =>
      match scanItems env wanted (page.data.getD []) best bestArea with
      | Sum.inl found => Except.ok (some found)
      | Sum.inr (best2, bestArea2) =>
        match extractNextCursor page with
        | none => Except.ok best2
        | some c => fdLoop env wanted fuel (some c) best2 bestArea2

/-- `findDocFormatByTitle` from `src/unnamed/part_001` (lines 463-638):
trims the wanted title, returns null for an empty one, and runs the
capped page loop starting with no cursor, no best match, best area -1. -/
def findDocFormatByTitle (env : BoardEnv) (exactTitle : String) :
    Except String (Option Merged) :=
  if jsTrim exactTitle = "" then Except.ok none
  else fdLoop env (jsTrim exactTitle) 100 none none (-1)

/-- Number of page-listing requests issued by the part_001 locator loop:
same traversal as fdLoop, counting one request per iteration that
reaches the GET. -/
def fdCount (env : BoardEnv) (wanted : String) :
    Nat → Option String → Option Merged → Int → Nat
  | 0, _, _, _ => 0
  | fuel + 1, cursor, best, bestArea =>
    match env.listPage cursor with
    | none => 1
    | some page =>
      match scanItems env wanted (page.data.getD []) best bestArea with
      | Sum.inl _ => 1
      | Sum.inr (best2, bestArea2) =>
        match extractNextCursor page with
        | none => 1
        | some c => 1 + fdCount env wanted fuel (some c) best2 bestArea2

/-- Number of page-listing requests issued by one findDocFormatByTitle
call. -/
def pageFetchCount (env : BoardEnv) (exactTitle : String) : Nat :=
  if jsTrim exactTitle = "" then 0
  else fdCount env (jsTrim exactTitle) 100 none none (-1)

end Part001

namespace AnalyzePdf

/-- Per-page scan of the simple findDocFormatByTitle in
analyze-selected-pdf.js (lines 410-416): the first doc_format item whose
extracted title equals the wanted one. -/
def firstTitleMatch (wanted : String) : List MItem → Option MItem
  | [] => none
  | it :: rest =>
    if it.itemType ≠ "doc_format" then firstTitleMatch wanted rest
    else if extractItemTitle it = wanted then some it
    else firstTitleMatch wanted rest

/-- Page loop of the simple locator (analyze-selected-pdf.js
lines 399-421): returns the first title match immediately; same 100-page
cap and cursor handling. -/
def fdLoopSimple (env : BoardEnv) (wanted : String) :
    Nat → Option String → Except String (Option MItem)
  | 0, _ => Except.ok none
  | fuel + 1, cursor =>
    match env.listPage cursor with
    | none => Except.error "Miro GET items failed"
    | some page =>
      match firstTitleMatch wanted (page.data.getD []) with
      | some it => Except.ok (some it)
      | none =>
        match extractNextCursor page with
        | none => Except.ok none
        | some c => fdLoopSimple env wanted fuel (some c)

/-- `findDocFormatByTitle` from `src/api/analyze-selected-pdf.js`
(lines 395-424): no placeholder or area logic, first exact title match
wins. -/
def findDocFormatByTitle (env : BoardEnv) (exactTitle : String) :
    Except String (Option MItem) :=
  if jsTrim exactTitle = "" then Except.ok none
  else fdLoopSimple env (jsTrim exactTitle) 100 none

end AnalyzePdf

/-- A single listing page carrying the given items and no next cursor. -/
def onePage (items : List MItem) : PageResp :=
  ⟨some items, none, none, none, none, none⟩

/-- Board with one listing page and the given details endpoint. -/
def onePageEnv (items : List MItem) (docsF : String → Option MItem) : BoardEnv :=
  ⟨fun _ => some (onePage items), docsF⟩

/-- Details endpoint serving exactly two documents. -/
def docsTwo (a da b db : MItem) : String → Option MItem :=
  fun i => if i = a.id then some da else if i = b.id then some db else none

/-- On a single-page board the part_001 loop reduces to one scan of the
page items. -/
theorem fdLoop_onePage (items : List MItem) (docsF : String → Option MItem)
    (w : String) (fuel : Nat) (cursor : Option String) (best : Option Merged) (area : Int) :
    Part001.fdLoop (onePageEnv items docsF) w (fuel + 1) cursor best area
      = (match Part001.scanItems (onePageEnv items docsF) w items best area with
         | Sum.inl f => Except.ok (some f)
         | Sum.inr (b, _) => Except.ok b) := by
  rw [Part001.fdLoop]
  simp only [onePageEnv, onePage]
  cases h : Part001.scanItems (onePageEnv items docsF) w items best area with
  | inl f =>
    simp only [onePageEnv, onePage] at h
    simp [h]
  | inr p =>
    simp only [onePageEnv, onePage] at h
    rcases p with ⟨b, a⟩
    simp [h, extractNextCursor]

/-- Claim C2 (amended): among two same-titled document items, one
satisfying the code placeholder predicate isEffectivelyEmptyDoc and one
not, the part_001 locator returns the placeholder immediately and with
unconditional priority, in either scan order and regardless of
geometry. -/
theorem C2_placeholder_priority (wanted : String) (itA itB dA dB : MItem)
    (hw : jsTrim wanted = wanted) (hw0 : wanted ≠ "")
    (hidA : itA.id ≠ "") (hidB : itB.id ≠ "") (hid : itA.id ≠ itB.id)
    (htyA : itA.itemType = "doc_format") (htyB : itB.itemType = "doc_format")
    (htA : extractItemTitle itA = wanted) (htB : extractItemTitle itB = wanted)
    (hpA : Part001.isEffectivelyEmptyDoc wanted dA = true)
    (hpB : Part001.isEffectivelyEmptyDoc wanted dB = false) :
    Part001.findDocFormatByTitle (onePageEnv [itB, itA] (docsTwo itA dA itB dB)) wanted
      = Except.ok (some ⟨itA, some dA⟩)
    ∧ Part001.findDocFormatByTitle (onePageEnv [itA, itB] (docsTwo itA dA itB dB)) wanted
      = Except.ok (some ⟨itA, some dA⟩) := by
  have hid2 : itB.id ≠ itA.id := Ne.symm hid
  constructor
  · show (if jsTrim wanted = "" then Except.ok none
      else Part001.fdLoop (onePageEnv [itB, itA] (docsTwo itA dA itB dB)) (jsTrim wanted)
        100 none none (-1)) = _
    rw [hw, if_neg hw0]
    show Part001.fdLoop _ wanted (99 + 1) none none (-1) = _
    rw [fdLoop_onePage]
    simp only [Part001.scanItems, onePageEnv, htyA, htyB, htA, htB, docsTwo, hid2,
      hidA, hidB, hpA, hpB, if_neg, if_pos, ne_eq, not_true_eq_false,
      not_false_eq_true, ite_false, ite_true, Option.isNone_none, Bool.true_or,
      if_true, true_or]
    simp
  · show (if jsTrim wanted = "" then Except.ok none
      else Part001.fdLoop (onePageEnv [itA, itB] (docsTwo itA dA itB dB)) (jsTrim wanted)
        100 none none (-1)) = _
    rw [hw, if_neg hw0]
    show Part001.fdLoop _ wanted (99 + 1) none none (-1) = _
    rw [fdLoop_onePage]
    simp only [Part001.scanItems, onePageEnv, htyA, htyB, htA, htB, docsTwo, hid2,
      hidA, hidB, hpA, hpB, if_neg, if_pos, ne_eq, not_true_eq_false,
      not_false_eq_true, ite_false, ite_true, Option.isNone_none, Bool.true_or,
      if_true, true_or]

/-- Same-titled item whose details content is literally empty: per the
code, NOT a placeholder. -/
def dEmptyC2 : MItem := ⟨"", "", none, none, none, none, some "", none, none, none⟩

/-- Same-titled item with populated content. -/
def dBigC2 : MItem := ⟨"", "", none, none, none, none, some "Lots of results", none, none, none⟩

/-- List item with empty-content details and small geometry. -/
def iEmptyC2 : MItem := ⟨"e", "doc_format", some "Target", none, none, none, none, none, some 1, some 1⟩

/-- List item with populated details and larger geometry. -/
def iBigC2 : MItem := ⟨"b", "doc_format", some "Target", none, none, none, none, none, some 20, some 20⟩

/-- Board of the C2 counterexample: the empty-content item first, then
the populated larger one. -/
def envC2 : BoardEnv :=
  onePageEnv [iEmptyC2, iBigC2] (docsTwo iEmptyC2 dEmptyC2 iBigC2 dBigC2)

/-- Claim C2 counterexample: with one same-titled item of literally
empty content and one populated item of larger geometry, the part_001
locator returns the populated larger item, not the empty one, because
isEffectivelyEmptyDoc rejects empty content outright. -/
theorem C2_counterexample :
    Part001.extractDocContent dEmptyC2 = ""
    ∧ Part001.isEffectivelyEmptyDoc "Target" dEmptyC2 = false
    ∧ geometryArea iEmptyC2 < geometryArea iBigC2
    ∧ Part001.findDocFormatByTitle envC2 "Target"
        = Except.ok (some ⟨iBigC2, some dBigC2⟩) :=
  ⟨rfl, by decide, by decide, rfl⟩

/-- Placeholder details: content is exactly a single heading line of the
title. -/
def dAw : MItem := ⟨"", "", none, none, none, none, some "# Target", none, none, none⟩

/-- Populated details. -/
def dBw : MItem := ⟨"", "", none, none, none, none, some "Quarterly results body", none, none, none⟩

/-- Placeholder list item, small. -/
def iAw : MItem := ⟨"a", "doc_format", some "Target", none, none, none, none, none, some 2, some 2⟩

/-- Populated list item, larger. -/
def iBw : MItem := ⟨"b", "doc_format", some "Target", none, none, none, none, none, some 30, some 30⟩

/-- Witness for amended claim C2 at a concrete board: the populated
larger item comes first, yet the heading-only placeholder is returned. -/
theorem C2_witness :
    Part001.isEffectivelyEmptyDoc "Target" dAw = true
    ∧ Part001.isEffectivelyEmptyDoc "Target" dBw = false
    ∧ geometryArea iAw < geometryArea iBw
    ∧ Part001.findDocFormatByTitle (onePageEnv [iBw, iAw] (docsTwo iAw dAw iBw dBw)) "Target"
        = Except.ok (some ⟨iAw, some dAw⟩) :=
  ⟨by decide, by decide, by decide,
    (C2_placeholder_priority "Target" iAw iBw dAw dBw (by decide) (by decide)
      (by decide) (by decide) (by decide) (by decide) (by decide) (by decide)
      (by decide) (by decide) (by decide)).1⟩

/-- Claim C3 (amended): with no placeholder among the same-titled
matches, the part_001 locator scans the whole page and returns the
largest-area match, in either order. -/
theorem C3_largest_area (wanted : String) (itA itB dA dB : MItem)
    (hw : jsTrim wanted = wanted) (hw0 : wanted ≠ "")
    (hidA : itA.id ≠ "") (hidB : itB.id ≠ "") (hid : itA.id ≠ itB.id)
    (htyA : itA.itemType = "doc_format") (htyB : itB.itemType = "doc_format")
    (htA : extractItemTitle itA = wanted) (htB : extractItemTitle itB = wanted)
    (hpA : Part001.isEffectivelyEmptyDoc wanted dA = false)
    (hpB : Part001.isEffectivelyEmptyDoc wanted dB = false)
    (harea : geometryArea itA < geometryArea itB) :
    Part001.findDocFormatByTitle (onePageEnv [itA, itB] (docsTwo itA dA itB dB)) wanted
      = Except.ok (some ⟨itB, some dB⟩)
    ∧ Part001.findDocFormatByTitle (onePageEnv [itB, itA] (docsTwo itA dA itB dB)) wanted
      = Except.ok (some ⟨itB, some dB⟩) := by
  have hid2 : itB.id ≠ itA.id := Ne.symm hid
  have harea2 : ¬(geometryArea itB < geometryArea itA) := not_lt.mpr (le_of_lt harea)
  constructor
  · show (if jsTrim wanted = "" then Except.ok none
      else Part001.fdLoop (onePageEnv [itA, itB] (docsTwo itA dA itB dB)) (jsTrim wanted)
        100 none none (-1)) = _
    rw [hw, if_neg hw0]
    show Part001.fdLoop _ wanted (99 + 1) none none (-1) = _
    rw [fdLoop_onePage]
    simp only [Part001.scanItems, onePageEnv, htyA, htyB, htA, htB, docsTwo, hid2,
      hidA, hidB, hpA, hpB, harea, if_neg, if_pos, ne_eq, not_true_eq_false,
      not_false_eq_true, ite_false, ite_true, Option.isNone_none, Bool.true_or,
      if_true, true_or]
    simp [harea]
  · show (if jsTrim wanted = "" then Except.ok none
      else Part001.fdLoop (onePageEnv [itB, itA] (docsTwo itA dA itB dB)) (jsTrim wanted)
        100 none none (-1)) = _
    rw [hw, if_neg hw0]
    show Part001.fdLoop _ wanted (99 + 1) none none (-1) = _
    rw [fdLoop_onePage]
    simp only [Part001.scanItems, onePageEnv, htyA, htyB, htA, htB, docsTwo, hid2,
      hidA, hidB, hpA, hpB, if_neg, if_pos, ne_eq, not_true_eq_false,
      not_false_eq_true, ite_false, ite_true, Option.isNone_none, Bool.true_or,
      if_true, true_or]
    simp [harea2]

/-- Area-100 match, listed first. -/
def i100C3 : MItem := ⟨"s", "doc_format", some "Target", none, none, none, none, none, some 10, some 10⟩

/-- Area-200 match, listed second. -/
def i200C3 : MItem := ⟨"l", "doc_format", some "Target", none, none, none, none, none, some 10, some 20⟩

/-- Board of the C3 counterexample. -/
def envC3 : BoardEnv :=
  onePageEnv [i100C3, i200C3] (fun _ => none)

/-- Claim C3 counterexample: the findDocFormatByTitle of
analyze-selected-pdf.js (also cited by the claim) returns the first
title match — here the area-100 item — rather than completing the scan
and returning the area-200 item. -/
theorem C3_counterexample :
    AnalyzePdf.findDocFormatByTitle envC3 "Target" = Except.ok (some i100C3)
    ∧ extractItemTitle i200C3 = "Target"
    ∧ geometryArea i100C3 = 100
    ∧ geometryArea i200C3 = 200
    ∧ i100C3 ≠ i200C3 :=
  ⟨rfl, by decide, by decide, by decide, by decide⟩

/-- Non-placeholder details for the C3 witness. -/
def dC3a : MItem := ⟨"", "", none, none, none, none, some "Existing body one", none, none, none⟩

/-- Non-placeholder details for the C3 witness. -/
def dC3b : MItem := ⟨"", "", none, none, none, none, some "Existing body two", none, none, none⟩

/-- Witness for amended claim C3: areas 100 and 200, no placeholder, the
area-200 item is returned with the area-100 one listed first. -/
theorem C3_witness :
    Part001.isEffectivelyEmptyDoc "Target" dC3a = false
    ∧ Part001.isEffectivelyEmptyDoc "Target" dC3b = false
    ∧ geometryArea i100C3 < geometryArea i200C3
    ∧ Part001.findDocFormatByTitle
        (onePageEnv [i100C3, i200C3] (docsTwo i100C3 dC3a i200C3 dC3b)) "Target"
        = Except.ok (some ⟨i200C3, some dC3b⟩) :=
  ⟨by decide, by decide, by decide,
    (C3_largest_area "Target" i100C3 i200C3 dC3a dC3b (by decide) (by decide)
      (by decide) (by decide) (by decide) (by decide) (by decide) (by decide)
      (by decide) (by decide) (by decide) (by decide)).1⟩

/-- The part_001 page loop issues at most as many page requests as it
has fuel. -/
theorem fdCount_le_fuel (env : BoardEnv) (w : String) :
    ∀ (fuel : Nat) (cursor : Option String) (best : Option Merged) (area : Int),
      Part001.fdCount env w fuel cursor best area ≤ fuel := by
  intro fuel
  induction fuel with
  | zero => intro cursor best area; simp [Part001.fdCount]
  | succ n ih =>
    intro cursor best area
    rw [Part001.fdCount]
    split
    · omega
    · split
      · omega
      · split
        · omega
        · exact le_trans (Nat.add_le_add_left (ih _ _ _) 1) (by omega)

/-- A paginator that always returns a fresh cursor and no items. -/
def advPage : PageResp :=
  ⟨some [], none, none, none, some "x", none⟩

/-- Adversarial board: every page listing succeeds and yields a next
cursor, so only the hard cap stops the loop. -/
def advEnv : BoardEnv :=
  ⟨fun _ => some advPage, fun _ => none⟩

/-- On the adversarial board the loop spends exactly its fuel. -/
theorem fdCount_adv (w : String) :
    ∀ (fuel : Nat) (cursor : Option String) (best : Option Merged) (area : Int),
      Part001.fdCount advEnv w fuel cursor best area = fuel := by
  intro fuel
  induction fuel with
  | zero => intro cursor best area; simp [Part001.fdCount]
  | succ n ih =>
    intro cursor best area
    rw [Part001.fdCount]
    show (match Part001.scanItems advEnv w ((some ([] : List MItem)).getD []) best area with
      | Sum.inl _ => 1
      | Sum.inr (best2, bestArea2) =>
        match extractNextCursor advPage with
        | none => 1
        | some c => 1 + Part001.fdCount advEnv w n (some c) best2 bestArea2) = n + 1
    rw [show Part001.scanItems advEnv w ((some ([] : List MItem)).getD []) best area
      = Sum.inr (best, area) from rfl]
    rw [show extractNextCursor advPage = some "x" from rfl]
    simp only
    rw [ih]
    exact Nat.add_comm 1 n

/-- Claim C9: findDocFormatByTitle performs at most 100 page fetches for
every board environment and wanted title, and an adversarial paginator
that always returns a fresh cursor is stopped exactly at the cap. -/
theorem C9_page_fetch_cap :
    (∀ (env : BoardEnv) (t : String), Part001.pageFetchCount env t ≤ 100)
    ∧ Part001.pageFetchCount advEnv "T" = 100 := by
  constructor
  · intro env t
    unfold Part001.pageFetchCount
    split
    · omega
    · exact fdCount_le_fuel env (jsTrim t) 100 none none (-1)
  · unfold Part001.pageFetchCount
    rw [if_neg (by decide : ¬(jsTrim "T" = ""))]
    exact fdCount_adv (jsTrim "T") 100 none none (-1)

/-- One creation-payload variant of the recreate-and-replace strategy
(analyze-selected-pdf.js lines 206-220): content format, whether the
dedicated title field is set, whether geometry is carried over.  The
rendered content strings do not influence the control flow the claims
are about and are not modelled. -/
structure CreateVariant where
  html : Bool
  includeTitle : Bool
  includeGeometry : Bool
deriving DecidableEq, Repr

/-- The eight createVariants, in source order: markdown with title (with
and without geometry), markdown with embedded heading, then the same
four shapes as HTML. -/
def createVariants : List CreateVariant :=
  [⟨false, true, true⟩, ⟨false, true, false⟩,
   ⟨false, false, true⟩, ⟨false, false, false⟩,
   ⟨true, true, true⟩, ⟨true, true, false⟩,
   ⟨true, false, true⟩, ⟨true, false, false⟩]

/-- External calls the write-back phase can issue, recorded as a trace. -/
inductive WAction where
  | createDoc (i : Nat) (v : CreateVariant)
  | patchParent (docId : String)
  | deleteDoc (docId : String)
  | createText
  | docUpdate (i : Nat)
deriving DecidableEq, Repr

/-- The delete target of an action, when it is a delete. -/
def waDelete : WAction → Option String
  | WAction.deleteDoc i => some i
  | _ => none

/-- Whether an action creates or deletes a board item. -/
def waCreatesOrDeletes : WAction → Bool
  | WAction.createDoc _ _ => true
  | WAction.deleteDoc _ => true
  | WAction.createText => true
  | _ => false

/-- Environment of the recreate-and-replace phase: the doc-creation
endpoint per variant index (ok with an optional created id — the source
keeps looping when the response carries no id — or a thrown error), the
parent patch, the delete, and the text fallback. -/
structure WriteEnv where
  createDoc : Nat → CreateVariant → Except String (Option String)
  patchParent : String → Except String Unit
  deleteDoc : String → Except String Unit
  createText : Except String (Option String)

/-- Fields of the write-back outcome that the claims inspect, as the
handler reports them in its 200 response. -/
structure WriteOutcome where
  createdDocId : Option String
  createdTextId : Option String
  replacedDocId : Option String
  docCreateErrors : List String
deriving Repr

/-- The `for (const v of createVariants)` loop (analyze-selected-pdf.js
lines 222-257): break once a doc id was obtained, record every thrown
message, carry on after a success without id. -/
def createLoop (env : WriteEnv) :
    Nat → List CreateVariant → Option String → List String → List WAction →
      Option String × List String × List WAction
  | _, [], created, errs, tr => (created, errs, tr)
  | i, v :: rest, created, errs, tr =>
    if created.isSome then (created, errs, tr)
    else
      match env.createDoc i v with
      | Except.ok ido => createLoop env (i + 1) rest ido errs (tr ++ [WAction.createDoc i v])
      | Except.error e => createLoop env (i + 1) rest none (errs ++ [e]) (tr ++ [WAction.createDoc i v])

/-- Steps after the creation loop (analyze-selected-pdf.js
lines 259-297): best-effort re-parenting, then deletion of the
placeholder only when a replacement exists, else the plain-text
fallback. -/
def afterCreate (env : WriteEnv) (targetDocId : String) (hasParent : Bool)
    (created : Option String) (errs : List String) (tr : List WAction) :
    WriteOutcome × List WAction :=
  match created with
  | some cid =>
    let patched :=
      if hasParent then
        match env.patchParent cid with
        | Except.ok _ => (errs, tr ++ [WAction.patchParent cid])
        | Except.error e => (errs ++ [e], tr ++ [WAction.patchParent cid])
      else (errs, tr)
    match env.deleteDoc targetDocId with
    | Except.ok _ =>
      (⟨some cid, none, some targetDocId, patched.1⟩,
        patched.2 ++ [WAction.deleteDoc targetDocId])
    | Except.error e =>
      (⟨some cid, none, some targetDocId, patched.1 ++ [e]⟩,
        patched.2 ++ [WAction.deleteDoc targetDocId])
  | none =>
    match env.createText with
    | Except.ok tid => (⟨none, tid, none, errs⟩, tr ++ [WAction.createText])
    | Except.error _ => (⟨none, none, none, errs⟩, tr ++ [WAction.createText])

/-- The write-back phase of the recreate-and-replace handler
(analyze-selected-pdf.js lines 201-297): try the eight creation
variants, re-parent, delete-after-create, or fall back to a text item. -/
def writePhase (env : WriteEnv) (targetDocId : String) (hasParent : Bool) :
    WriteOutcome × List WAction :=
  match createLoop env 0 createVariants none [] [] with
  | (created, errs, tr) => afterCreate env targetDocId hasParent created errs tr

/-- The creation loop issues only createDoc actions: it adds no deletes
and no text fallback. -/
theorem createLoop_actions (env : WriteEnv) :
    ∀ (vs : List CreateVariant) (i : Nat) (created : Option String)
      (errs : List String) (tr : List WAction),
      ((createLoop env i vs created errs tr).2.2.filterMap waDelete
          = tr.filterMap waDelete)
      ∧ (WAction.createText ∈ (createLoop env i vs created errs tr).2.2
          ↔ WAction.createText ∈ tr) := by
  intro vs
  induction vs with
  | nil => intro i created errs tr; exact ⟨rfl, Iff.rfl⟩
  | cons v rest ih =>
    intro i created errs tr
    rw [createLoop]
    split
    · exact ⟨rfl, Iff.rfl⟩
    · cases h : env.createDoc i v with
      | ok ido =>
        have := ih (i + 1) ido errs (tr ++ [WAction.createDoc i v])
        refine ⟨?_, ?_⟩
        · rw [this.1]; simp [waDelete]
        · rw [this.2]; simp
      | error e =>
        have := ih (i + 1) none (errs ++ [e]) (tr ++ [WAction.createDoc i v])
        refine ⟨?_, ?_⟩
        · rw [this.1]; simp [waDelete]
        · rw [this.2]; simp

/-- Claim C6: in the recreate-and-replace strategy the original
placeholder is deleted exactly when a replacement document was created
first (the only delete ever issued names the placeholder), and the
plain-text fallback is attempted exactly when every creation variant
failed to produce a document. -/
theorem C6_delete_only_after_create (env : WriteEnv) (targetDocId : String) (hasParent : Bool) :
    ((writePhase env targetDocId hasParent).2.filterMap waDelete
        = if (writePhase env targetDocId hasParent).1.createdDocId.isSome
          then [targetDocId] else [])
    ∧ (WAction.createText ∈ (writePhase env targetDocId hasParent).2
        ↔ (writePhase env targetDocId hasParent).1.createdDocId = none) := by
  unfold writePhase
  have hc := createLoop_actions env createVariants 0 none [] []
  cases hcl : createLoop env 0 createVariants none [] [] with
  | mk created p =>
    cases p with
    | mk errs tr =>
      rw [hcl] at hc
      simp only at hc
      unfold afterCreate
      cases created with
      | some cid =>
        cases hd : env.deleteDoc targetDocId with
        | ok u =>
          cases hp : hasParent with
          | true =>
            cases hpp : env.patchParent cid with
            | ok u2 =>
              simp [hd, hpp, waDelete, hc.1, hc.2, List.filterMap_append]
            | error e2 =>
              simp [hd, hpp, waDelete, hc.1, hc.2, List.filterMap_append]
          | false =>
            simp [hd, waDelete, hc.1, hc.2, List.filterMap_append]
        | error e =>
          cases hp : hasParent with
          | true =>
            cases hpp : env.patchParent cid with
            | ok u2 =>
              simp [hd, hpp, waDelete, hc.1, hc.2, List.filterMap_append]
            | error e2 =>
              simp [hd, hpp, waDelete, hc.1, hc.2, List.filterMap_append]
          | false =>
            simp [hd, waDelete, hc.1, hc.2, List.filterMap_append]
      | none =>
        cases ht : env.createText with
        | ok tid =>
          simp [ht, waDelete, hc.1, hc.2, List.filterMap_append]
        | error e =>
          simp [ht, waDelete, hc.1, hc.2, List.filterMap_append]

/-- The exact title of the target document (part_001 line 1030). -/
def TARGET_DOC_TITLE : String := "Objectives and Key Results Catalog"

/-- The heading line used as placeholder convention
(part_001 line 1209). -/
def titleLine : String := "# " ++ TARGET_DOC_TITLE

/-- Argument value of a protocol call: string, boolean, or the version
token (an arbitrary JSON value taken from the doc_get response). -/
inductive ArgVal where
  | s (v : String)
  | b (v : Bool)
  | j (v : Jx)
deriving BEq, Repr

/-- `buildDocUpdateArgs` (part_001 lines 1958-2022): pick, for each
logical field, the first declared property name from a priority-ordered
alias list; with no schema, fall back to a conservative default shape.
Fields appear in the source assignment order. -/
def buildDocUpdateArgs (props : List String) (boardId docId findText replaceText : String)
    (replaceAll : Bool) (version : Option Jx) : List (String × ArgVal) :=
  if props.isEmpty then
    [("board_id", ArgVal.s boardId), ("doc_id", ArgVal.s docId),
     ("find", ArgVal.s findText), ("replace", ArgVal.s replaceText),
     ("replace_all", ArgVal.b replaceAll)]
    ++ (match version with
        | some v => [("version", ArgVal.j v)]
        | none => [])
  else
    (if props.contains "board_id" then [("board_id", ArgVal.s boardId)]
     else if props.contains "boardId" then [("boardId", ArgVal.s boardId)]
     else if props.contains "board" then [("board", ArgVal.s boardId)]
     else [])
    ++ (if props.contains "doc_id" then [("doc_id", ArgVal.s docId)]
        else if props.contains "docId" then [("docId", ArgVal.s docId)]
        else if props.contains "document_id" then [("document_id", ArgVal.s docId)]
        else if props.contains "documentId" then [("documentId", ArgVal.s docId)]
        else if props.contains "id" then [("id", ArgVal.s docId)]
        else [])
    ++ (if props.contains "find" then [("find", ArgVal.s findText)]
        else if props.contains "search" then [("search", ArgVal.s findText)]
        else if props.contains "find_text" then [("find_text", ArgVal.s findText)]
        else if props.contains "findText" then [("findText", ArgVal.s findText)]
        else if props.contains "search_text" then [("search_text", ArgVal.s findText)]
        else if props.contains "from" then [("from", ArgVal.s findText)]
        else if props.contains "match" then [("match", ArgVal.s findText)]
        else [])
    ++ (if props.contains "replace" then [("replace", ArgVal.s replaceText)]
        else if props.contains "replacement" then [("replacement", ArgVal.s replaceText)]
        else if props.contains "replace_text" then [("replace_text", ArgVal.s replaceText)]
        else if props.contains "replaceText" then [("replaceText", ArgVal.s replaceText)]
        else if props.contains "to" then [("to", ArgVal.s replaceText)]
        else [])
    ++ (if props.contains "replace_all" then [("replace_all", ArgVal.b replaceAll)]
        else if props.contains "replaceAll" then [("replaceAll", ArgVal.b replaceAll)]
        else if props.contains "all_occurrences" then [("all_occurrences", ArgVal.b replaceAll)]
        else if props.contains "allOccurrences" then [("allOccurrences", ArgVal.b replaceAll)]
        else if props.contains "occurrence" then
          [("occurrence", ArgVal.s (if replaceAll then "all" else "single"))]
        else if props.contains "occurrences" then
          [("occurrences", ArgVal.s (if replaceAll then "all" else "single"))]
        else [])
    ++ (match version with
        | some v =>
          if props.contains "version" then [("version", ArgVal.j v)]
          else if props.contains "doc_version" then [("doc_version", ArgVal.j v)]
          else if props.contains "docVersion" then [("docVersion", ArgVal.j v)]
          else if props.contains "revision" then [("revision", ArgVal.j v)]
          else []
        | none => [])

/-- `isEffectivelyEmptyMarkdown` (part_001 lines 2091-2108). -/
def isEffectivelyEmptyMarkdown (markdown wantedTitle : String) : Bool :=
  if stripNbspTrim markdown = "" then true
  else
    if jsTrim wantedTitle = "" then false
    else if stripNbspTrim markdown = jsTrim wantedTitle then true
    else if stripNbspTrim markdown = "# " ++ jsTrim wantedTitle then true
    else
      match ((splitRN (stripNbspTrim markdown)).map jsTrim).filter (fun l => !(l == "")) with
      | [l] => decide (jsTrim (Part001.stripHeadingMarker l) = jsTrim wantedTitle)
      | _ => false

/-- Desired markdown (part_001 lines 1214-1217): keep the placeholder
heading convention when the current content is blank or already starts
with the title heading. -/
def desiredMarkdownOf (currentMarkdown docMarkdown : String) : String :=
  if jsTrim currentMarkdown = "" ∨ jsStartsWith (jsTrim currentMarkdown) titleLine = true then
    titleLine ++ "\n\n" ++ docMarkdown
  else docMarkdown

/-- One find/replace candidate of the doc_update loop. -/
structure UpdCandidate where
  find : String
  replace : String
  reason : String
deriving DecidableEq, Repr

/-- Candidate construction (part_001 lines 1225-1240): exact whole-doc
replace when the content differs from the desired one; for an
effectively empty placeholder additionally the trimmed content (when it
differs), the title heading line, and the bare title. -/
def buildUpdateCandidates (currentMarkdown desiredMarkdown : String) : List UpdCandidate :=
  (if currentMarkdown ≠ "" ∧ currentMarkdown ≠ desiredMarkdown then
    [⟨currentMarkdown, desiredMarkdown, "replace-entire-doc-exact"⟩] else [])
  ++ (if isEffectivelyEmptyMarkdown currentMarkdown TARGET_DOC_TITLE then
        (if jsTrim currentMarkdown ≠ "" ∧ jsTrim currentMarkdown ≠ currentMarkdown then
          [⟨jsTrim currentMarkdown, desiredMarkdown, "replace-entire-doc-trim"⟩] else [])
        ++ [⟨titleLine, desiredMarkdown, "replace-title-heading-only"⟩,
            ⟨TARGET_DOC_TITLE, desiredMarkdown, "replace-plain-title-only"⟩]
      else [])

/-- The candidate list the phase runs on, given the fetched current
markdown and the generated markdown. -/
def phaseCandidates (currentMarkdown docMarkdown : String) : List UpdCandidate :=
  buildUpdateCandidates currentMarkdown (desiredMarkdownOf currentMarkdown docMarkdown)

/-- One recorded doc_update attempt (the updateAttempts entries of
part_001 lines 1287-1289). -/
structure UpdAttempt where
  ok : Bool
  reason : String
  err : Option String
deriving Repr

/-- Environment of the versioned find/replace phase: the doc_update tool
invocation by attempt index and built arguments. -/
structure McpEnv where
  docUpdate : Nat → List (String × ArgVal) → Except String Unit

/-- Responses the phase can produce: the no-op 200, the success 200, or
the hard 500 carrying the accumulated attempts. -/
inductive McpOutcome where
  | noop200
  | ok200 (attempts : List UpdAttempt)
  | err500 (attempts : List UpdAttempt)
deriving Repr

/-- The doc_update attempt loop (part_001 lines 1258-1291): skip
candidates with an empty find, stop at the first success, record every
failure with its message. -/
def updateLoop (env : McpEnv) (props : List String) (boardId docId : String) (version : Option Jx) :
    Nat → List UpdCandidate → List UpdAttempt → List WAction →
      Bool × List UpdAttempt × List WAction
  | _, [], attempts, tr => (false, attempts, tr)
  | i, c :: rest, attempts, tr =>
    if c.find = "" then updateLoop env props boardId docId version (i + 1) rest attempts tr
    else
      match env.docUpdate i (buildDocUpdateArgs props boardId docId c.find c.replace true version) with
      | Except.ok _ => (true, attempts ++ [⟨true, c.reason, none⟩], tr ++ [WAction.docUpdate i])
      | Except.error e =>
        updateLoop env props boardId docId version (i + 1) rest
          (attempts ++ [⟨false, c.reason, some e⟩]) (tr ++ [WAction.docUpdate i])

/-- The versioned find/replace phase of the part_001 handler
(lines 1209-1322): build candidates, answer the no-op 200 when there are
none, otherwise run the attempt loop and answer 200 on success or the
hard 500 with the accumulated attempts on exhaustion. -/
def mcpUpdatePhase (env : McpEnv) (props : List String)
    (boardId docId currentMarkdown docMarkdown : String) (version : Option Jx) :
    McpOutcome × List WAction :=
  if (phaseCandidates currentMarkdown docMarkdown).isEmpty then (McpOutcome.noop200, [])
  else
    match updateLoop env props boardId docId version 0
        (phaseCandidates currentMarkdown docMarkdown) [] [] with
    | (true, attempts, tr) => (McpOutcome.ok200 attempts, tr)
    | (false, attempts, tr) => (McpOutcome.err500 attempts, tr)

/-- Whether an Except is a success. -/
def exceptOk {α β : Type} : Except α β → Bool
  | Except.ok _ => true
  | Except.error _ => false

/-- Every candidate the phase builds has a nonempty find string. -/
theorem phaseCandidates_find_ne (cm dm : String) :
    ∀ c ∈ phaseCandidates cm dm, c.find ≠ "" := by
  intro c hc
  unfold phaseCandidates buildUpdateCandidates at hc
  rcases List.mem_append.mp hc with h | h
  · split at h
    · simp at h
      rename_i hg
      rw [h]
      exact hg.1
    · simp at h
  · split at h
    · rcases List.mem_append.mp h with h2 | h2
      · split at h2
        · simp at h2
          rename_i hg
          rw [h2]
          exact hg.1
        · simp at h2
      · simp at h2
        rcases h2 with h3 | h3
        · rw [h3]
          show titleLine ≠ ""
          decide
        · rw [h3]
          show TARGET_DOC_TITLE ≠ ""
          decide
    · simp at h

/-- When every doc_update invocation fails, the attempt loop never
reports success, records one failed attempt with its error message per
candidate with nonempty find, and issues only docUpdate actions. -/
theorem updateLoop_all_fail (env : McpEnv) (props : List String) (boardId docId : String)
    (version : Option Jx)
    (hfail : ∀ i a, exceptOk (env.docUpdate i a) = false) :
    ∀ (cands : List UpdCandidate) (i : Nat) (attempts : List UpdAttempt) (tr : List WAction),
      (∀ c ∈ cands, c.find ≠ "") →
      (updateLoop env props boardId docId version i cands attempts tr).1 = false
      ∧ (updateLoop env props boardId docId version i cands attempts tr).2.1.length
          = attempts.length + cands.length
      ∧ (∀ a ∈ (updateLoop env props boardId docId version i cands attempts tr).2.1,
          a ∈ attempts ∨ (a.ok = false ∧ a.err.isSome = true))
      ∧ (∀ act ∈ (updateLoop env props boardId docId version i cands attempts tr).2.2,
          act ∈ tr ∨ ∃ j, act = WAction.docUpdate j) := by
  intro cands
  induction cands with
  | nil =>
    intro i attempts tr hfind
    refine ⟨rfl, by simp [updateLoop], ?_, ?_⟩
    · intro a ha
      exact Or.inl ha
    · intro act hact
      exact Or.inl hact
  | cons c rest ih =>
    intro i attempts tr hfind
    rw [updateLoop]
    rw [if_neg (hfind c (by simp))]
    cases h : env.docUpdate i (buildDocUpdateArgs props boardId docId c.find c.replace true version) with
    | ok u =>
      have := hfail i (buildDocUpdateArgs props boardId docId c.find c.replace true version)
      rw [h] at this
      simp [exceptOk] at this
    | error e =>
      have hrec := ih (i + 1) (attempts ++ [⟨false, c.reason, some e⟩])
        (tr ++ [WAction.docUpdate i]) (fun c2 hc2 => hfind c2 (by simp [hc2]))
      refine ⟨hrec.1, ?_, ?_, ?_⟩
      · rw [hrec.2.1]
        simp
        omega
      · intro a ha
        rcases hrec.2.2.1 a ha with h2 | h2
        · rcases List.mem_append.mp h2 with h3 | h3
          · exact Or.inl h3
          · simp at h3
            rw [h3]
            exact Or.inr ⟨rfl, rfl⟩
        · exact Or.inr h2
      · intro act hact
        rcases hrec.2.2.2 act hact with h2 | h2
        · rcases List.mem_append.mp h2 with h3 | h3
          · exact Or.inl h3
          · simp at h3
            exact Or.inr ⟨i, h3⟩
        · exact Or.inr h2

/-- Claim C7: when every doc_update attempt fails (for example with a
version conflict against the optimistic-concurrency token) and the
candidate list is nonempty, the versioned find/replace phase answers the
hard 500 error carrying one failed attempt (with its error message) per
candidate, never reports success, and never issues any item creation or
deletion. -/
theorem C7_update_exhaustion (env : McpEnv) (props : List String)
    (boardId docId currentMarkdown docMarkdown : String) (version : Option Jx)
    (hfail : ∀ i a, exceptOk (env.docUpdate i a) = false)
    (hne : phaseCandidates currentMarkdown docMarkdown ≠ []) :
    ∃ l, (mcpUpdatePhase env props boardId docId currentMarkdown docMarkdown version).1
          = McpOutcome.err500 l
      ∧ l.length = (phaseCandidates currentMarkdown docMarkdown).length
      ∧ (∀ a ∈ l, a.ok = false ∧ a.err.isSome = true)
      ∧ (∀ act ∈ (mcpUpdatePhase env props boardId docId currentMarkdown docMarkdown version).2,
          waCreatesOrDeletes act = false) := by
  have hfind := phaseCandidates_find_ne currentMarkdown docMarkdown
  have hloop := updateLoop_all_fail env props boardId docId version hfail
    (phaseCandidates currentMarkdown docMarkdown) 0 [] [] hfind
  unfold mcpUpdatePhase
  rw [if_neg (by simpa using hne)]
  cases hl : updateLoop env props boardId docId version 0
      (phaseCandidates currentMarkdown docMarkdown) [] [] with
  | mk updated p =>
    cases p with
    | mk attempts tr =>
      rw [hl] at hloop
      simp only at hloop
      rcases hloop with ⟨h1, h2, h3, h4⟩
      subst h1
      refine ⟨attempts, rfl, by simpa using h2, ?_, ?_⟩
      · intro a ha
        rcases h3 a ha with h5 | h5
        · simp at h5
        · exact h5
      · intro act hact
        rcases h4 act hact with h5 | h5
        · simp at h5
        · rcases h5 with ⟨j, hj⟩
          rw [hj]
          rfl

/-- A doc_update endpoint that always reports a version conflict. -/
def envC7 : McpEnv :=
  ⟨fun _ _ => Except.error "doc_update version conflict"⟩

/-- Witness for claim C7 at a concrete scenario: the current content is
the title-heading placeholder, every update attempt fails, and the phase
answers the hard 500 with three failed attempts. -/
theorem C7_witness :
    ∃ l, (mcpUpdatePhase envC7 ["board_id", "doc_id", "find", "replace", "version"]
            "b1" "d1" "# Objectives and Key Results Catalog" "RESULT" (some (Jx.jnum 7))).1
          = McpOutcome.err500 l
      ∧ l.length = (phaseCandidates "# Objectives and Key Results Catalog" "RESULT").length
      ∧ (∀ a ∈ l, a.ok = false ∧ a.err.isSome = true)
      ∧ (∀ act ∈ (mcpUpdatePhase envC7 ["board_id", "doc_id", "find", "replace", "version"]
            "b1" "d1" "# Objectives and Key Results Catalog" "RESULT" (some (Jx.jnum 7))).2,
          waCreatesOrDeletes act = false) :=
  C7_update_exhaustion envC7 ["board_id", "doc_id", "find", "replace", "version"]
    "b1" "d1" "# Objectives and Key Results Catalog" "RESULT" (some (Jx.jnum 7))
    (fun _ _ => rfl) (by decide)

/-- A normalized table column: identifier and display title
(table-to-stickies-mcp.js normalizeColumns output). -/
structure Col where
  id : String
  title : String
deriving DecidableEq, Repr

/-- Environment of the stickies phase: the sticky-note creation endpoint
by call index and payload variant (true is the data-wrapped payload A,
false the root-level payload B), taking the sticky text. -/
structure StickyEnv where
  create : Nat → Bool → String → Except String (Option String)

/-- `createStickyNote` (table-to-stickies-mcp.js lines 178-210): trim
the text to a single space when blank, try payload A, and on a thrown
error try payload B; every error from both variants is absorbed into a
null result, never rethrown.  A success without an id also yields null
without trying the other payload. -/
def createStickyNote (env : StickyEnv) (k : Nat) (content : String) : Option String :=
  match env.create k true (if jsTrim content = "" then " " else jsTrim content) with
  | Except.ok ido => ido
  | Except.error _ =>
    match env.create k false (if jsTrim content = "" then " " else jsTrim content) with
    | Except.ok ido => ido
    | Except.error _ => none

/-- Cell text of the grid loop (table-to-stickies-mcp.js line 120): the
cell string when present, the empty string otherwise. -/
def cellText (row : List String) (c : Nat) : String :=
  (row[c]?).getD ""

/-- Inner column loop: one createStickyNote call per column, pushing the
id only when one was created; the remaining-columns counter, the column
index, the call counter and the collected ids are threaded through. -/
def colsLoop (env : StickyEnv) (row : List String) :
    Nat → Nat → Nat → List String → List String × Nat
  | 0, _, k, ids => (ids, k)
  | n + 1, c, k, ids =>
    match createStickyNote env k (cellText row c) with
    | some sid => colsLoop env row n (c + 1) (k + 1) (ids ++ [sid])
    | none => colsLoop env row n (c + 1) (k + 1) ids

/-- Outer row loop over header plus data rows. -/
def rowsLoop (env : StickyEnv) (ncols : Nat) :
    List (List String) → Nat → List String → List String × Nat
  | [], k, ids => (ids, k)
  | row :: rest, k, ids =>
    match colsLoop env row ncols 0 k ids with
    | (ids2, k2) => rowsLoop env ncols rest k2 ids2

/-- Responses of the stickies handler the claim is about. -/
inductive TResp where
  | err500
  | ok200 (rowCount createdCount : Nat) (createdIds : List String)
deriving DecidableEq, Repr

/-- The grid phase of the table-to-stickies handler
(table-to-stickies-mcp.js lines 87-139): reject empty columns or rows
with a 500, else create one sticky per cell of the header row plus every
data row and answer 200 with ok true, the row count, and the created-id
count and list.  The pair second component counts the createStickyNote
calls issued. -/
def tableToStickiesPhase (env : StickyEnv) (columns : List Col) (rows : List (List String)) :
    TResp × Nat :=
  if columns.isEmpty || rows.isEmpty then (TResp.err500, 0)
  else
    match rowsLoop env columns.length ((columns.map (fun c => c.title)) :: rows) 0 [] with
    | (ids, calls) => (TResp.ok200 rows.length ids.length ids, calls)

/-- The column loop makes exactly one call per column and collects at
most one id per call. -/
theorem colsLoop_spec (env : StickyEnv) (row : List String) :
    ∀ (n c k : Nat) (ids : List String),
      (colsLoop env row n c k ids).2 = k + n
      ∧ (colsLoop env row n c k ids).1.length ≤ ids.length + n := by
  intro n
  induction n with
  | zero => intro c k ids; simp [colsLoop]
  | succ m ih =>
    intro c k ids
    rw [colsLoop]
    cases h : createStickyNote env k (cellText row c) with
    | some sid =>
      have := ih (c + 1) (k + 1) (ids ++ [sid])
      refine ⟨?_, ?_⟩
      · simp only
        rw [this.1]
        omega
      · simp only
        have h2 := this.2
        simp only [List.length_append, List.length_cons, List.length_nil] at h2
        omega
    | none =>
      have := ih (c + 1) (k + 1) ids
      refine ⟨?_, ?_⟩
      · simp only
        rw [this.1]
        omega
      · simp only
        have h2 := this.2
        omega

/-- The row loop makes exactly rows-times-columns calls and collects at
most one id per call. -/
theorem rowsLoop_spec (env : StickyEnv) (ncols : Nat) :
    ∀ (rws : List (List String)) (k : Nat) (ids : List String),
      (rowsLoop env ncols rws k ids).2 = k + rws.length * ncols
      ∧ (rowsLoop env ncols rws k ids).1.length ≤ ids.length + rws.length * ncols := by
  intro rws
  induction rws with
  | nil => intro k ids; simp [rowsLoop]
  | cons row rest ih =>
    intro k ids
    rw [rowsLoop]
    have hc := colsLoop_spec env row ncols 0 k ids
    cases h : colsLoop env row ncols 0 k ids with
    | mk ids2 k2 =>
      rw [h] at hc
      simp only at hc ⊢
      have hrest := ih k2 ids2
      refine ⟨?_, ?_⟩
      · rw [hrest.1, hc.1]
        simp only [List.length_cons]
        ring
      · have h2 := hrest.2
        have h3 := hc.2
        have h4 : (row :: rest).length * ncols = ncols + rest.length * ncols := by
          simp only [List.length_cons]
          ring
        omega

/-- Claim C10: for every sticky-creation environment — including ones
where some or all creations fail — the grid phase with nonempty columns
and rows issues exactly one createStickyNote call per cell of the header
row plus the data rows, absorbs every failure, and answers the 200
ok-true response whose createdCount counts only the stickies actually
created, at most rows-plus-one times columns many. -/
theorem C10_partial_failures_absorbed (env : StickyEnv) (columns : List Col)
    (rows : List (List String)) (hc : columns ≠ []) (hr : rows ≠ []) :
    ∃ ids, tableToStickiesPhase env columns rows
        = (TResp.ok200 rows.length ids.length ids, (rows.length + 1) * columns.length)
      ∧ ids.length ≤ (rows.length + 1) * columns.length := by
  unfold tableToStickiesPhase
  rw [if_neg (by simp [hc, hr])]
  have hs := rowsLoop_spec env columns.length
    ((columns.map (fun c => c.title)) :: rows) 0 []
  cases h : rowsLoop env columns.length ((columns.map (fun c => c.title)) :: rows) 0 [] with
  | mk ids calls =>
    rw [h] at hs
    simp only at hs
    refine ⟨ids, ?_, ?_⟩
    · have h1 := hs.1
      simp only [List.length_cons] at h1
      simp only
      rw [h1]
      norm_num
    · have h2 := hs.2
      simp only [List.length_cons, List.length_nil] at h2
      omega

/-- Sticky endpoint that fails the second call on both payload variants
and succeeds otherwise. -/
def envC10 : StickyEnv :=
  ⟨fun k _ _ => if k = 1 then Except.error "sticky create failed" else Except.ok (some "sid")⟩

/-- Witness for claim C10: one column, two data rows, call 1 fails on
both payloads; the phase still answers ok200 with two created ids out of
three attempted cells. -/
theorem C10_witness :
    ∃ ids, tableToStickiesPhase envC10 [⟨"c1", "Head"⟩] [["a"], ["b"]]
        = (TResp.ok200 ([["a"], ["b"]] : List (List String)).length ids.length ids,
            (([["a"], ["b"]] : List (List String)).length + 1)
              * ([⟨"c1", "Head"⟩] : List Col).length)
      ∧ ids.length ≤ (([["a"], ["b"]] : List (List String)).length + 1)
          * ([⟨"c1", "Head"⟩] : List Col).length :=
  C10_partial_failures_absorbed envC10 [⟨"c1", "Head"⟩] [["a"], ["b"]]
    (by decide) (by decide)
